import Mathlib

/-!
Shallow embedding of the alm Gaussian-beam toolkit (src/beamq.py, src/component.py,
src/beamPath.py): complex beam parameters, ABCD transfer matrices, optical
components, and beam paths, together with the operations the verified claims are
about. Floating-point values of the source are modelled by real numbers, Python
complex numbers by elements of the complex field, and raised exceptions by the
error branch of an Except value.
-/

/-- A 2 by 2 real ray-transfer (ABCD) matrix, as produced by numpy matrix literals
in the source. -/
abbrev Mat2 := Matrix (Fin 2) (Fin 2) ℝ

/-- beamq (beamq.py:42-51): stores the complex beam parameter q and the wavelength.
The constructor also zero-initialises several derived-value cache fields
(waistSize, waistZ, divergenceAngle, radiusOfCurvature, beamWidth, rayleighRange);
none of them is ever read by the operations embedded here, so they are omitted. -/
structure beamq where
  q : ℂ
  wavelength : ℝ

/-- beamq.get_waistZ (beamq.py:185-189): the real part of the q parameter. -/
def get_waistZ (qin : beamq) : ℝ :=
  qin.q.re

/-- beamq.transformValue (beamq.py:95-100): the Moebius action of an ABCD matrix on
the complex q value, qvalout = (M00 qvalin + M01) / (M10 qvalin + M11). -/
noncomputable def transformValue (qvalin : ℂ) (M : Mat2) : ℂ :=
  ((M 0 0 : ℝ) * qvalin + (M 0 1 : ℝ)) / ((M 1 0 : ℝ) * qvalin + (M 1 1 : ℝ))

/-- beamq.set_q (beamq.py:115-123): rejects a q value whose imaginary part is
negative (strict comparison in the source), otherwise stores it in the q field. -/
noncomputable def set_q (b : beamq) (qvalue : ℂ) : Except String beamq :=
  if qvalue.im < 0 then
    Except.error "imaginary part of q parameter must be positive"
  else
    Except.ok { b with q := qvalue }

/-- beamq.set_wavelength (beamq.py:127-135): the source tests the imaginary part of
the new wavelength (which is zero for every real number) and, on the non-raising
branch, assigns the new wavelength into the q field (`self.q = self.newwavelength`),
leaving the wavelength field untouched. -/
noncomputable def set_wavelength (b : beamq) (newwavelength : ℂ) : Except String beamq :=
  if newwavelength.im ≤ 0 then
    Except.error "wavelength must be positive"
  else
    Except.ok { b with q := newwavelength }

/-- beamq.duplicate (beamq.py:139-148): the body `self = qold; return self` rebinds
the local name and returns the argument itself, so the caller gets the original
object back, not a copy. -/
def duplicate (qold : beamq) : beamq :=
  qold

/-- beamq.overlap (beamq.py:222-240): w1 and w2 are taken from get_waistZ in the
source (the real part of q); raises when the two wavelengths differ, otherwise
returns (2 pi / wavelength * w1 * w2 / abs(conj q2 - q1)) squared. -/
noncomputable def overlap (beam1 beam2 : beamq) : Except String ℝ :=
  if beam1.wavelength ≠ beam2.wavelength then
    Except.error "Cannot overlap beams of different wavelength."
  else
    Except.ok ((2 * Real.pi / beam1.wavelength * get_waistZ beam1 * get_waistZ beam2 *
      (1 / Complex.abs (star beam2.q - beam1.q))) ^ 2)

/-- beamq.transform (beamq.py:244-261): computes qout with transformValue, then
`self.beamout = beamin.duplicate(beamin)` aliases beamin (duplicate returns its
argument, see above), so the assignment `self.beamout.q = self.qout` writes the
transformed q back into the input beam. The method returns the receiver, which in
the documented call pattern `newbeam = oldbeam.transform(oldbeam, M)` is beamin
itself. The embedding returns the pair (state of beamin after the call, object
returned to the caller); both carry the transformed q. -/
noncomputable def transform (beamin : beamq) (M : Mat2) : beamq × beamq :=
  ({ duplicate beamin with q := transformValue beamin.q M },
   { duplicate beamin with q := transformValue beamin.q M })

/-- component (component.py:33-41): ray transfer matrix M, axial position z, a type
tag and an optional label (the Python constructor leaves the label attribute absent
when it is passed None). The `parameters` record is never read by any embedded
operation and is omitted. -/
structure component where
  M : Mat2
  z : ℝ
  type : String
  label : Option String

/-- componentList.combine (component.py:313-327): folds the list into a single
matrix Mtrain, each component's matrix left-multiplying the accumulated product
(`Mtrain = self[j].M * Mtrain`), and wraps the result in a component at z = 0 with
the composite type tag and no label. -/
noncomputable def combine (l : List component) : component :=
  { M := l.foldl (fun Mtrain c => c.M * Mtrain) 1
    z := 0
    type := "composite"
    label := none }

/-- beamPath (beamPath.py): the seed beam and its position, the target beam and its
position, and the underlying list of components. -/
structure beamPath where
  seedq : beamq
  seedz : ℝ
  targetq : beamq
  targetz : ℝ
  components : List component

/-- beamPath.addComponent (beamPath.py:190-199): appends the new component to the
component list, with no label validation of any kind. (In the source the statement
`self.components = self.components.append(newComponent)` first mutates the
underlying list and then fails, because `components` is a getter-only property and
list.append returns None; the data effect embedded here is the unconditional
append performed on the underlying list.) -/
def addComponent (p : beamPath) (newComponent : component) : beamPath :=
  { p with components := p.components ++ [newComponent] }

/-- Helper for moveComponent: update the z of the first component carrying the
given label, returning none when no component carries it. Modelled from the spec:
beamPath.findComponentIndex is absent from the source (only its callers exist);
per the spec, components are identified unambiguously by their label, and a
missing label is a NotFoundError. The z arithmetic is taken from the source
(beamPath.py:231-239): in absolute mode the displacement is first replaced by
displacement - zstart, and the new position is always zstart + displacement. -/
noncomputable def moveInList (componentLabel : String) (displacement : ℝ)
    (isabsolute : String) : List component → Option (List component)
  | [] => none
  | c :: rest =>
    if c.label = some componentLabel then
      some ({ c with z := c.z +
        (if isabsolute = "absolute" then displacement - c.z else displacement) } :: rest)
    else
      match moveInList componentLabel displacement isabsolute rest with
      | none => none
      | some rest' => some (c :: rest')

/-- beamPath.moveComponent (beamPath.py:218-239): locate the component by label and
change its z, by the given displacement in relative mode (the default, any flag
other than the absolute keyword), or to the given value in absolute mode. -/
noncomputable def moveComponent (p : beamPath) (componentLabel : String)
    (displacement : ℝ) (isabsolute : String) : Except String beamPath :=
  match moveInList componentLabel displacement isabsolute p.components with
  | none => Except.error "NotFoundError"
  | some comps => Except.ok { p with components := comps }

/-- The z position of the first component carrying the given label, if any.
Modelled from the spec: the label accessor beamPath.component(label) has no body in
the source (only its docstring); per the spec it gives unambiguous access to the
component identified by the label. -/
def findZ (l : List component) (componentLabel : String) : Option ℝ :=
  (l.find? (fun c => decide (c.label = some componentLabel))).map component.z

/-- The z position of the component of a path carrying the given label, if any
(see findZ). -/
def getComponentZ (p : beamPath) (componentLabel : String) : Option ℝ :=
  findZ p.components componentLabel

/-- Insert a component into a z-sorted list, keeping already-present components
first among equal z values. Modelled from the spec: beamPath.sortComponents is only
stubbed in the source (commented out; the components property merely names it);
the spec orders the derived view ascending by z with a stable tie-break. -/
noncomputable def insertByZ (c : component) : List component → List component
  | [] => [c]
  | d :: rest => if d.z ≤ c.z then d :: insertByZ c rest else c :: d :: rest

/-- Sort a component list ascending by z (see insertByZ). -/
noncomputable def sortComponents (l : List component) : List component :=
  l.foldr insertByZ []

/-- Modelled from the spec: BeamParameter.transform applies the Moebius action of
the matrix and returns a new instance with the same wavelength; this non-mutating
form is what the spec-modelled qPropagate applies to the seed beam. (The source's
mutating beamq.transform is embedded separately above as transform.) -/
noncomputable def transformBeam (b : beamq) (M : Mat2) : beamq :=
  { b with q := transformValue b.q M }

/-- Modelled from the spec: beamPath.qPropagate is absent from the source
(beamPath.branchPath calls self.qPropagate, but no propagate method exists). Per
spec section 4.4, propagate(z) determines the ordered sub-sequence of components
lying strictly after seedz and up to z (ascending when z > seedz, reversed
traversal when z < seedz), combines it into one composite transfer matrix, and
applies the beam transform to the seed beam. -/
noncomputable def qPropagate (p : beamPath) (z : ℝ) : beamq :=
  transformBeam p.seedq (combine (
    if p.seedz ≤ z then
      (sortComponents p.components).filter (fun c => decide (p.seedz < c.z ∧ c.z ≤ z))
    else
      ((sortComponents p.components).filter
        (fun c => decide (z ≤ c.z ∧ c.z < p.seedz))).reverse)).M

/-- A lens component labelled lens1 at z = 1, used in concrete scenarios for the
move operation. -/
noncomputable def lens8 : component :=
  { M := !![1, 0; -2, 1], z := 1, type := "lens", label := some "lens1" }

/-- A one-component path holding lens8, used in concrete scenarios for the move
operation. -/
noncomputable def path8 : beamPath :=
  { seedq := ⟨Complex.I, 1⟩, seedz := 0, targetq := ⟨Complex.I, 1⟩, targetz := 3,
    components := [lens8] }

/-- A lens component labelled lens1 at z = 1, used in the duplicate-label add
scenario. -/
noncomputable def lens9 : component :=
  { M := !![1, 0; -2, 1], z := 1, type := "lens", label := some "lens1" }

/-- A second, distinct component carrying the same label lens1, used in the
duplicate-label add scenario. -/
noncomputable def dupLens9 : component :=
  { M := !![1, 0; -1, 1], z := 2, type := "lens", label := some "lens1" }

/-- A one-component path holding lens9, used in the duplicate-label add scenario. -/
noncomputable def path9 : beamPath :=
  { seedq := ⟨Complex.I, 1⟩, seedz := 0, targetq := ⟨Complex.I, 1⟩, targetz := 3,
    components := [lens9] }

/-- Folding the combine step starting from X multiplies the reversed list product
onto X from the left. -/
theorem foldl_combine_eq (l : List component) (X : Mat2) :
    l.foldl (fun Mtrain c => c.M * Mtrain) X = ((l.map component.M).reverse).prod * X := by
  induction l generalizing X with
  | nil => simp
  | cons c t ih => simp [ih, mul_assoc]

/-- The Moebius action of the identity matrix fixes every q value. -/
theorem transformValue_one (q : ℂ) : transformValue q 1 = q := by
  simp [transformValue, Matrix.one_apply]

/-- The absolute value in the overlap denominator is symmetric in the two beams. -/
theorem abs_star_sub_comm (q1 q2 : ℂ) :
    Complex.abs (star q2 - q1) = Complex.abs (star q1 - q2) := by
  have h : Complex.normSq (star q2 - q1) = Complex.normSq (star q1 - q2) := by
    simp only [Complex.normSq_apply, Complex.star_def, Complex.sub_re, Complex.sub_im,
      Complex.conj_re, Complex.conj_im]
    ring
  rw [Complex.abs_apply, Complex.abs_apply, h]

/-- Updating the z of the labelled component succeeds whenever the label is present,
and the labelled component's position afterwards is the source's zstart +
displacement, with the displacement first adjusted in absolute mode. -/
theorem moveInList_findZ (componentLabel : String) (displacement : ℝ)
    (isabsolute : String) (l : List component) (z0 : ℝ)
    (h : findZ l componentLabel = some z0) :
    ∃ l', moveInList componentLabel displacement isabsolute l = some l' ∧
      findZ l' componentLabel =
        some (z0 + if isabsolute = "absolute" then displacement - z0 else displacement) := by
  induction l with
  | nil => simp [findZ] at h
  | cons c rest ih =>
    by_cases hc : c.label = some componentLabel
    · have hz : z0 = c.z := by
        rw [findZ, List.find?_cons_of_pos _ (by simpa using hc)] at h
        simpa using h.symm
      subst hz
      refine ⟨_, by rw [moveInList, if_pos hc], ?_⟩
      rw [findZ, List.find?_cons_of_pos _ (by simpa using hc)]
      simp
    · have hrest : findZ rest componentLabel = some z0 := by
        rw [findZ, List.find?_cons_of_neg _ (by simpa using hc)] at h
        exact h
      obtain ⟨rest', h1, h2⟩ := ih hrest
      refine ⟨c :: rest', ?_, ?_⟩
      · rw [moveInList, if_neg hc, h1]
      · rw [findZ, List.find?_cons_of_neg _ (by simpa using hc)]
        exact h2

/-- C1: code evaluated at the failing input. The claimed mode-overlap fraction of a
beam against itself is 1, but the source takes w1 and w2 from get_waistZ (the real
part of q, the waist offset) instead of a beam width, so the overlap of the waist
beam q = i with itself evaluates to 0, not 1. -/
theorem C1_overlap_self_eval :
    overlap ⟨Complex.I, 1⟩ ⟨Complex.I, 1⟩ = Except.ok 0 ∧ (0 : ℝ) ≠ 1 := by
  constructor
  · rw [overlap]
    simp [get_waistZ]
  · norm_num

/-- C2: propagating to the seed position returns the seed beam unchanged for every
path: the sub-sequence of components strictly between seedz and seedz is empty, its
composite is the identity matrix, and the identity Moebius transform fixes the seed
q, so the result equals the seed beam. -/
theorem C2_propagate_seedz_returns_seed (p : beamPath) :
    qPropagate p p.seedz = p.seedq := by
  rw [qPropagate, if_pos (le_refl p.seedz)]
  have hfilter : (sortComponents p.components).filter
      (fun c => decide (p.seedz < c.z ∧ c.z ≤ p.seedz)) = [] := by
    apply List.filter_eq_nil_iff.mpr
    intro c _
    simp only [decide_eq_true_eq, not_and, not_le]
    exact fun h1 => h1
  rw [hfilter]
  have hM : (combine []).M = 1 := by
    simp [combine]
  rw [hM, transformBeam, transformValue_one]

/-- C3: combine over the empty sequence yields the identity matrix; over any
sequence in traversal order it yields a composite-typed component whose matrix is
the product of the member matrices with each later matrix on the left; and
combining [A,B,C] equals combining [combine [A,B], C]. -/
theorem C3_combine_fold :
    (combine []).M = 1 ∧
    (∀ l : List component, (combine l).type = "composite" ∧
      (combine l).M = ((l.map component.M).reverse).prod) ∧
    (∀ A B C : component, combine [A, B, C] = combine [combine [A, B], C]) := by
  refine ⟨by simp [combine], fun l => ⟨rfl, ?_⟩, fun A B C => ?_⟩
  · simp [combine, foldl_combine_eq]
  · simp [combine, List.foldl, mul_assoc]

/-- C4: overlap raises exactly when the two beams' wavelengths differ, and returns
a value without error when they are equal. -/
theorem C4_overlap_error_iff (b1 b2 : beamq) :
    ((∃ e, overlap b1 b2 = Except.error e) ↔ b1.wavelength ≠ b2.wavelength) ∧
    (b1.wavelength = b2.wavelength → ∃ v, overlap b1 b2 = Except.ok v) := by
  by_cases h : b1.wavelength = b2.wavelength
  · refine ⟨?_, fun _ => ⟨_, by rw [overlap, if_neg (by simp [h])]⟩⟩
    simp [overlap, h]
  · refine ⟨?_, fun he => absurd he h⟩
    simp [overlap, h]

/-- C4 witness: beam A at 1064 nm against beam B at 532 nm raises; beam A against a
beam of equal wavelength returns a value. -/
theorem C4_overlap_error_iff_witness :
    (∃ e, overlap ⟨Complex.I, 1064e-9⟩ ⟨Complex.I, 532e-9⟩ = Except.error e) ∧
    (∃ v, overlap ⟨Complex.I, 1064e-9⟩ ⟨Complex.I, 1064e-9⟩ = Except.ok v) :=
  ⟨(C4_overlap_error_iff ⟨Complex.I, 1064e-9⟩ ⟨Complex.I, 532e-9⟩).1.mpr (by norm_num),
   (C4_overlap_error_iff ⟨Complex.I, 1064e-9⟩ ⟨Complex.I, 1064e-9⟩).2 rfl⟩

/-- C5: code evaluated at the failing input. Applying the free-space matrix
[[1,1],[0,1]] to the beam q = i writes the transformed value 1 + i back into the
input beam (duplicate returns the original object, so the assignment to beamout.q
lands on the input), contradicting the claim that the input beam is unchanged. -/
theorem C5_transform_mutates_input :
    (transform ⟨Complex.I, 1⟩ !![1, 1; 0, 1]).1.q = 1 + Complex.I ∧
    (transform ⟨Complex.I, 1⟩ !![1, 1; 0, 1]).1 ≠ (⟨Complex.I, 1⟩ : beamq) := by
  have hq : (transform ⟨Complex.I, 1⟩ !![1, 1; 0, 1]).1.q = 1 + Complex.I := by
    simp [transform, transformValue, duplicate]
    ring
  refine ⟨hq, fun h => ?_⟩
  have h2 : (1 : ℂ) + Complex.I = Complex.I := by
    rw [← hq, h]
  simp [Complex.ext_iff] at h2

/-- C6: code evaluated at the failing input. The source rejects a q value only when
its imaginary part is strictly negative, so setting q = 0 (imaginary part zero, a
physically invalid beam by the source's own error message) is accepted and stored
rather than raising. -/
theorem C6_set_q_zero_im_accepted :
    set_q ⟨Complex.I, 1⟩ 0 = Except.ok (⟨0, 1⟩ : beamq) := by
  rw [set_q, if_neg (by simp)]

/-- C7: code evaluated at the failing input. The source tests the imaginary part of
the new wavelength, which is zero for every real number, so setting the positive
wavelength 1064 nm raises instead of succeeding. -/
theorem C7_set_wavelength_positive_raises :
    (0 : ℝ) < 1064e-9 ∧
    set_wavelength ⟨Complex.I, 1064e-9⟩ ((1064e-9 : ℝ) : ℂ) =
      Except.error "wavelength must be positive" := by
  refine ⟨by norm_num, ?_⟩
  rw [set_wavelength, if_pos (by simp)]

/-- C8: for a component present under the given label at position z0, a relative
move by d puts it at z0 + d and an absolute move to a puts it at exactly a,
regardless of z0. -/
theorem C8_moveComponent_relative_absolute (p : beamPath) (componentLabel : String)
    (z0 d a : ℝ) (h : getComponentZ p componentLabel = some z0) :
    (∃ p1, moveComponent p componentLabel d "" = Except.ok p1 ∧
      getComponentZ p1 componentLabel = some (z0 + d)) ∧
    (∃ p2, moveComponent p componentLabel a "absolute" = Except.ok p2 ∧
      getComponentZ p2 componentLabel = some a) := by
  constructor
  · obtain ⟨l', h1, h2⟩ := moveInList_findZ componentLabel d "" p.components z0 h
    refine ⟨{ p with components := l' }, ?_, ?_⟩
    · rw [moveComponent, h1]
    · rw [getComponentZ]
      rw [show ({ p with components := l' } : beamPath).components = l' from rfl]
      rw [h2, if_neg (by decide)]
  · obtain ⟨l', h1, h2⟩ := moveInList_findZ componentLabel a "absolute" p.components z0 h
    refine ⟨{ p with components := l' }, ?_, ?_⟩
    · rw [moveComponent, h1]
    · rw [getComponentZ]
      rw [show ({ p with components := l' } : beamPath).components = l' from rfl]
      rw [h2, if_pos rfl]
      congr 1
      ring

/-- C8 witness: the scenario of the claim. lens1 sits at z = 1; moving it by +0.5
relatively puts it at 1.5, then moving it to 2.5 absolutely leaves it at exactly
2.5 regardless of the intermediate displacement. -/
theorem C8_moveComponent_relative_absolute_witness :
    getComponentZ path8 "lens1" = some 1 ∧
    ∃ p1, moveComponent path8 "lens1" 0.5 "" = Except.ok p1 ∧
      getComponentZ p1 "lens1" = some 1.5 ∧
      ∃ p2, moveComponent p1 "lens1" 2.5 "absolute" = Except.ok p2 ∧
        getComponentZ p2 "lens1" = some 2.5 := by
  have h0 : getComponentZ path8 "lens1" = some 1 := rfl
  obtain ⟨⟨p1, hp1, hz1⟩, -⟩ :=
    C8_moveComponent_relative_absolute path8 "lens1" 1 0.5 0 h0
  have hz1' : getComponentZ p1 "lens1" = some 1.5 := by
    rw [hz1]
    norm_num
  obtain ⟨-, p2, hp2, hz2⟩ :=
    C8_moveComponent_relative_absolute p1 "lens1" 1.5 0 2.5 hz1'
  exact ⟨h0, p1, hp1, hz1', p2, hp2, hz2⟩

/-- C9: code evaluated at the failing input. Adding a second component that carries
the already-present label lens1 does not raise and is not rejected: the component
is appended, leaving two components with the same label in the sequence. -/
theorem C9_addComponent_no_duplicate_check :
    (addComponent path9 dupLens9).components = [lens9, dupLens9] ∧
    dupLens9.label = lens9.label ∧
    ((addComponent path9 dupLens9).components.filter
      (fun c => decide (c.label = some "lens1"))).length = 2 := by
  refine ⟨rfl, rfl, rfl⟩

/-- C10: the overlap computation as implemented is symmetric in its two beam
arguments when the wavelengths are equal. -/
theorem C10_overlap_symm (b1 b2 : beamq) (h : b1.wavelength = b2.wavelength) :
    overlap b1 b2 = overlap b2 b1 := by
  rw [overlap, overlap, if_neg (by simp [h]), if_neg (by simp [h])]
  congr 1
  rw [h, abs_star_sub_comm b1.q b2.q]
  ring

/-- C10 witness: symmetry at two concrete beams of equal wavelength. -/
theorem C10_overlap_symm_witness :
    overlap ⟨Complex.I, 1⟩ ⟨2 + Complex.I, 1⟩ = overlap ⟨2 + Complex.I, 1⟩ ⟨Complex.I, 1⟩ :=
  C10_overlap_symm ⟨Complex.I, 1⟩ ⟨2 + Complex.I, 1⟩ rfl
